import Mathlib

/-!
Verification development for the `comfyui_model_installer` frontend extension
(`src/web/ModelInstallerExtension.js`).  The JavaScript source is shallowly
embedded: each function relevant to the checked properties is translated into
an executable Lean definition, and the properties are proved about those
definitions.  Strings are handled through their underlying character lists;
the WHATWG `URL` platform object is modelled by an explicit parser for the
fragment the code exercises (`scheme://host/path?search`); browser timers and
the DOM progress panel are modelled as explicit state.
-/

namespace ModelInstaller

/-! ### Character-list helpers modelling JavaScript string primitives -/

/-- Model of JavaScript `String.prototype.replace` with a plain-string
pattern: replaces only the first occurrence of `pat` by `rep`. -/
def replaceFirst (pat rep : List Char) : List Char → List Char
  | [] => []
  | c :: cs =>
    if pat.isPrefixOf (c :: cs) then rep ++ (c :: cs).drop pat.length
    else c :: replaceFirst pat rep cs

/-- Model of JavaScript `String.prototype.includes`: does `pat` occur as a
contiguous substring? -/
def includesSub (pat : List Char) : List Char → Bool
  | [] => pat.isEmpty
  | c :: cs => pat.isPrefixOf (c :: cs) || includesSub pat cs

/-- Splits at the first occurrence of `pat`, returning the part before and the
part after it; `none` when `pat` does not occur. -/
def splitFirst (pat : List Char) : List Char → Option (List Char × List Char)
  | [] => none
  | c :: cs =>
    if pat.isPrefixOf (c :: cs) then some ([], (c :: cs).drop pat.length)
    else
      match splitFirst pat cs with
      | none => none
      | some (a, b) => some (c :: a, b)

/-- Splits a character list on every occurrence of the separator, like
splitting a query string on `&`.  Always returns at least one part. -/
def splitOnChar (sep : Char) : List Char → List (List Char)
  | [] => [[]]
  | c :: cs =>
    match splitOnChar sep cs with
    | [] => [[]]
    | r :: rs => if c = sep then [] :: r :: rs else (c :: r) :: rs

/-- Splits a character list at every character satisfying the predicate,
modelling `String.prototype.split` with a character-class regex. -/
def splitOnPred (p : Char → Bool) : List Char → List (List Char)
  | [] => [[]]
  | c :: cs =>
    match splitOnPred p cs with
    | [] => [[]]
    | r :: rs => if p c then [] :: r :: rs else (c :: r) :: rs

/-- Model of `String.prototype.trim`: strips leading and trailing
whitespace. -/
def jsTrim (s : String) : String :=
  String.mk (((s.data.dropWhile Char.isWhitespace).reverse.dropWhile
    Char.isWhitespace).reverse)

/-- Model of `String.prototype.toLowerCase` on the ASCII labels used here. -/
def jsToLower (s : String) : String :=
  String.mk (s.data.map Char.toLower)

/-! ### Model of the WHATWG `URL` object

`normalizeDownloadUrl` uses `new URL(u)` only through `hostname`, `pathname`,
`searchParams.has/set` and `toString`.  The model below parses the fragment
`scheme://host/path?search`.  Inputs with userinfo, ports, fragments or
backslashes in the authority are treated as unparseable (the real parser
accepts some of these); no percent-encoding normalisation is performed.
An absent path serialises as `/`, as in the platform object. -/

structure URLM where
  scheme : List Char
  host : List Char
  pathname : List Char
  search : Option (List Char)
deriving DecidableEq, Repr

/-- Characters ending the host portion of an URL. -/
def hostStop (c : Char) : Bool := c == '/' || c == '?'

/-- Characters that make the modelled parser reject the authority part
(userinfo, ports, fragments, backslashes are outside the modelled fragment). -/
def badHostChar (c : Char) : Bool := c == '@' || c == ':' || c == '#' || c == '\\'

/-- The literal `://` separating scheme from authority. -/
def schemeSep : List Char := [':', '/', '/']

/-- Model of `new URL(u)` on the fragment described above; `none` models the
constructor throwing. -/
def parseURLChars (s : List Char) : Option URLM :=
  match splitFirst schemeSep s with
  | none => none
  | some (sch, rest) =>
    if sch.isEmpty || !(sch.all Char.isAlpha) then none
    else
      let host := rest.takeWhile (fun c => !(hostStop c))
      let rest2 := rest.dropWhile (fun c => !(hostStop c))
      if host.isEmpty || host.any badHostChar then none
      else
        let pathRaw := rest2.takeWhile (fun c => c != '?')
        let rest3 := rest2.dropWhile (fun c => c != '?')
        let pathname := if pathRaw.isEmpty then ['/'] else pathRaw
        let search : Option (List Char) :=
          match rest3 with
          | [] => none
          | _ :: q => some q
        some ⟨sch, host, pathname, search⟩

/-- Model of `url.toString()` for the modelled fragment. -/
def urlToChars (m : URLM) : List Char :=
  m.scheme ++ schemeSep ++ m.host ++ m.pathname ++
    (match m.search with
     | none => []
     | some q => '?' :: q)

/-- Name of a query parameter: the characters before the first `=`. -/
def paramName (p : List Char) : List Char := p.takeWhile (fun c => c != '=')

/-- Model of `url.searchParams.has('download')`. -/
def searchHasDownload : Option (List Char) → Bool
  | none => false
  | some q => (splitOnChar '&' q).any (fun p => paramName p == "download".data)

/-- The serialised `download=true` parameter. -/
def downloadParam : List Char := "download=true".data

/-- Model of `url.searchParams.set('download', 'true')` on a search string
that does not yet contain the parameter: the parameter is appended. -/
def appendDownload : Option (List Char) → List Char
  | none => downloadParam
  | some q => if q.isEmpty then downloadParam else q ++ '&' :: downloadParam

/-- The canonical model-hub host suffix the code tests with
`url.hostname.endsWith('huggingface.co')`. -/
def hfHost : List Char := "huggingface.co".data

/-- The `/blob/` path segment. -/
def blobSeg : List Char := "/blob/".data

/-- The `/tree/` path segment. -/
def treeSeg : List Char := "/tree/".data

/-- The `/resolve/` path segment. -/
def resolveSeg : List Char := "/resolve/".data

/-- The two conditional first-occurrence rewrites the code performs on
`url.pathname`: `/blob/` to `/resolve/`, then `/tree/` to `/resolve/`. -/
def rewritePath (p : List Char) : List Char :=
  let p1 := if includesSub blobSeg p then replaceFirst blobSeg resolveSeg p else p
  if includesSub treeSeg p1 then replaceFirst treeSeg resolveSeg p1 else p1

/-- Embedding of `normalizeDownloadUrl` (lines 493-509 of the source):
falsy input yields the empty string; an unparseable URL is returned
unchanged; a URL whose hostname ends with `huggingface.co` has its first
`/blob/` and `/tree/` path segments rewritten to `/resolve/` and a
`download=true` query parameter added when missing; every other URL is
returned unchanged.  The function is total by construction. -/
def normalizeDownloadUrl (u : String) : String :=
  if u = "" then ""
  else
    match parseURLChars u.data with
    | none => u
    | some m =>
      if hfHost.isSuffixOf m.host then
        String.mk (urlToChars
          { m with
            pathname := rewritePath m.pathname,
            search :=
              if searchHasDownload m.search then m.search
              else some (appendDownload m.search) })
      else u

/-! ### Status responses and the Item Controller's query rendering -/

/-- Parsed JSON body of a `GET /models/status` response, restricted to the
fields the embedded code reads (`present`, `state`, `folder`, `path`, `size`,
`error`); optional fields are `Option`s, matching absent JSON keys. -/
structure StatusResult where
  present : Bool
  state : Option String
  folder : Option String
  path : Option String
  size : Option Nat
  error : Option String
deriving DecidableEq, Repr

/-- Observable state of the per-item control after a settling event: button
label, button disabled flag, path-selector disabled flag, and the button
tooltip.  The source never assigns a tooltip (`btn.title`) anywhere, so the
rendering functions always leave it `none`. -/
structure ControlView where
  label : String
  btnDisabled : Bool
  pathSelDisabled : Bool
  tooltip : Option String
deriving DecidableEq, Repr

/-- Embedding of `setLabel` (lines 91-94): `Uninstall` when installed, else
`Install`. -/
def setLabelText (installed : Bool) : String :=
  if installed then "Uninstall" else "Install"

/-- Embedding of the UI-settling part of `query` (lines 113-121): a
`downloading` state disables the control; otherwise the label follows the
`present` flag and both controls are re-enabled.  No other `state` value is
examined and no tooltip is ever set. -/
def queryRender (js : StatusResult) : ControlView :=
  if js.state = some "downloading" then
    ⟨"Downloading…", true, true, none⟩
  else
    ⟨setLabelText js.present, false, false, none⟩

/-! ### The button click handler -/

/-- Parsed JSON body of a POST response, restricted to the fields the code
reads: `r.ok`, `r.status`, `jr.error_code`, `jr.error`. -/
structure HttpResp where
  ok : Bool
  status : Nat
  errorCode : Option String
  error : Option String
deriving DecidableEq, Repr

/-- Body of a POST to the model endpoints, as built by the click handler. -/
inductive PostBody where
  | install (name directory url : String) (path : Option String)
  | uninstall (directory : Option String) (name : String)
deriving DecidableEq, Repr

/-- Model of `(js.path || '').split(/[\\/]/).pop()`: the last component of a
path split on forward and backward slashes. -/
def basename (s : String) : String :=
  String.mk (((splitOnPred (fun c => c == '/' || c == '\\') s.data).getLast?).getD [])

/-- Model of the template literal `` `${directory}/${filename}` `` on the
optional identity fields; JavaScript interpolates a missing binding as the
text `undefined`. -/
def progressKey (directory filename : Option String) : String :=
  directory.getD "undefined" ++ "/" ++ filename.getD "undefined"

/-- Inputs captured by the click handler: the current button label, the
pre-click state of the path selector, the status response `js` closed over by
`query`, and the item identity. -/
structure ClickInputs where
  label : String
  pathSelDisabled : Bool
  pathVisible : Bool
  pathValue : String
  js : StatusResult
  directory : Option String
  filename : Option String
  url : String
deriving DecidableEq, Repr

/-- Everything the click handler did: the POSTs issued to the model
endpoints (in order), whether the token dialog was opened, whether a login
POST was issued, the key passed to `startDownloadProgress` (if any), the
`alert` message (if any), the button/path-selector state the handler leaves
behind, and whether it re-entered `query` (whose own rendering then takes
over the control). -/
structure ClickResult where
  posts : List (String × PostBody)
  authPrompted : Bool
  loginPosted : Bool
  trackerKey : Option String
  alertMsg : Option String
  btnText : String
  btnDisabled : Bool
  pathSelDisabled : Bool
  requeried : Bool
deriving DecidableEq, Repr

/-- Embedding of line 127: the endpoint is chosen from the `present` flag of
the captured status response. -/
def clickEndpoint (js : StatusResult) : String :=
  if js.present then "/models/uninstall" else "/models/install"

/-- Embedding of the body construction (lines 128-146): for a present item an
uninstall body keyed by the reported folder and path basename; otherwise an
install body, possible only when url, directory and filename are all known
(`none` models the `Insufficient information to install` throw). -/
def clickBody (inp : ClickInputs) : Option PostBody :=
  if inp.js.present then
    some (.uninstall inp.js.folder (basename (inp.js.path.getD "")))
  else
    match inp.directory, inp.filename with
    | some d, some f =>
      if inp.url ≠ "" then
        some (.install f d (normalizeDownloadUrl inp.url)
          (if inp.pathVisible ∧ inp.pathValue ≠ "" then some inp.pathValue else none))
      else none
    | _, _ => none

/-- The alert text for a cancelled or empty token prompt (line 192). -/
def tokenRequiredMsg : String :=
  "A Hugging Face access token is required. Visit https://huggingface.co/settings/tokens"

/-- The fallback alert text for a failed login (line 189). -/
def loginFailedMsg : String :=
  "Login failed. Please run: hf auth login --token <token> --add-to-git-credential"

/-- The failure exit shared by the catch block (lines 222-231) and the
`Reset UI on failure` block (lines 197-205): an alert, then for an install
intent the button is reset to `Install` and re-enabled and the path selector
re-enabled, while for an uninstall intent only the busy flag is cleared. -/
def clickFail (inp : ClickInputs) (installing : Bool)
    (posts : List (String × PostBody)) (authPrompted loginPosted : Bool)
    (msg : String) : ClickResult :=
  { posts := posts, authPrompted := authPrompted, loginPosted := loginPosted,
    trackerKey := none, alertMsg := some msg,
    btnText := if installing then "Install" else inp.label,
    btnDisabled := false,
    pathSelDisabled := if installing then false else inp.pathSelDisabled,
    requeried := false }

/-- Embedding of the whole `btn.onclick` handler (lines 122-232).  The
response environment supplies the outcome of each fetch the handler may
perform: `resp` for the first POST, `tokenDialog` for `openHfTokenDialog`
(`none` models cancellation), `loginResp` for `POST /auth/hf_login`, and
`retryResp` for the single post-login retry. -/
def runClick (inp : ClickInputs) (resp : HttpResp) (tokenDialog : Option String)
    (loginResp retryResp : HttpResp) : ClickResult :=
  let installing := jsToLower (jsTrim inp.label) ≠ "uninstall"
  let ep := clickEndpoint inp.js
  match clickBody inp with
  | none => clickFail inp installing [] false false "Insufficient information to install"
  | some body =>
    if resp.ok then
      if installing then
        { posts := [(ep, body)], authPrompted := false, loginPosted := false,
          trackerKey := some (progressKey inp.directory inp.filename),
          alertMsg := none, btnText := "Downloading…", btnDisabled := true,
          pathSelDisabled := true, requeried := false }
      else
        { posts := [(ep, body)], authPrompted := false, loginPosted := false,
          trackerKey := none, alertMsg := none, btnText := inp.label,
          btnDisabled := true, pathSelDisabled := inp.pathSelDisabled,
          requeried := true }
    else
      if resp.status = 401 ∧ resp.errorCode = some "auth_required" then
        match tokenDialog with
        | some t =>
          if jsTrim t ≠ "" then
            if loginResp.ok then
              if retryResp.ok then
                { posts := [(ep, body), (ep, body)], authPrompted := true,
                  loginPosted := true,
                  trackerKey := some (progressKey inp.directory inp.filename),
                  alertMsg := none, btnText := "Downloading…", btnDisabled := true,
                  pathSelDisabled := true, requeried := false }
              else
                clickFail inp installing [(ep, body), (ep, body)] true true
                  (retryResp.error.getD "operation failed")
            else
              clickFail inp installing [(ep, body)] true true
                (loginResp.error.getD loginFailedMsg)
          else
            clickFail inp installing [(ep, body)] true false tokenRequiredMsg
        | none =>
          clickFail inp installing [(ep, body)] true false tokenRequiredMsg
      else
        clickFail inp installing [(ep, body)] false false
          (resp.error.getD "operation failed")

/-! ### The Progress Tracker tick -/

/-- Model of JavaScript `Math.round` on an exact rational: round half toward
positive infinity.  The source computes these expressions in binary floating
point; the model uses exact rational arithmetic. -/
def jsRound (q : ℚ) : ℤ := ⌊q + 1 / 2⌋

/-- Zero-pads a numeral to two digits, like `String(n).padStart(2, '0')`. -/
def pad2 (n : Nat) : String := if n < 10 then "0" ++ toString n else toString n

/-- Renders a rational with two decimals, modelling `x.toFixed(2)` for the
non-negative values that occur here. -/
def fixed2 (q : ℚ) : String :=
  let c : ℤ := jsRound (q * 100)
  toString (c / 100) ++ "." ++ pad2 (c % 100).toNat

/-- Per-timer mutable state read by a tick: the previous byte/time sample,
the asynchronously updated `row.dataset.expected`, and the `expected`
argument the timer closed over. -/
structure TickState where
  lastBytes : Nat
  lastTimeMs : Nat
  rowExpected : Nat
  expected : Nat
deriving DecidableEq, Repr

/-- The effective expected total of a tick, `dynamicExpected || expected || 0`
(line 454): the dataset value when non-zero, else the closure argument. -/
def effTotal (st : TickState) : Nat :=
  if st.rowExpected ≠ 0 then st.rowExpected else st.expected

/-- Everything one timer tick did to the progress entry (lines 440-491):
final progress-bar width and percent text, sizes and ETA text, the computed
rate, whether the completion branch ran (cancelling the timer, scheduling the
entry's removal and invoking `onComplete`), and the updated sample state. -/
structure TickView where
  widthPct : Nat
  percentText : String
  sizesText : String
  etaText : String
  rateMBps : ℚ
  completed : Bool
  timerCleared : Bool
  removeDelayMs : Option Nat
  onCompleteInvoked : Bool
  lastBytes : Nat
  lastTimeMs : Nat
deriving DecidableEq, Repr

/-- Embedding of one `setInterval` tick of `createOrUpdateProgress`
(lines 440-491), given the poll response `j` and the current time.  `bytes`
is `j.size || 0`; the rate uses `max(1, now - last) / 1000` seconds and
`max(0, bytes - lastBytes)` bytes (natural subtraction models both `max`es);
the percentage is `min(100, round(bytes / total * 100))` when the effective
total is positive and the literal `0` otherwise; completion requires
`j.present && total > 0 && bytes >= total` and then pins the display at 100%,
cancels the timer, schedules removal after 2500 ms and invokes `onComplete`. -/
def tick (st : TickState) (j : StatusResult) (nowMs : Nat) : TickView :=
  let bytes := j.size.getD 0
  let dt : ℚ := (max 1 (nowMs - st.lastTimeMs) : ℚ) / 1000
  let db : Nat := bytes - st.lastBytes
  let mbps : ℚ := (db : ℚ) / (1024 * 1024) / dt
  let total := effTotal st
  let pct : Nat := if 0 < total then min 100 (jsRound ((bytes : ℚ) / total * 100)).toNat else 0
  let toMB : Nat → ℚ := fun n => (n : ℚ) / (1024 * 1024)
  let sizes :=
    if 0 < total then fixed2 (toMB bytes) ++ " MB / " ++ fixed2 (toMB total) ++ " MB"
    else fixed2 (toMB bytes) ++ " MB / ? MB"
  let eta :=
    if 0 < total ∧ 0 < mbps then
      let remainingBytes : Nat := total - bytes
      let remainingSec : ℚ := (remainingBytes : ℚ) / (mbps * 1024 * 1024)
      let mm : Nat := (⌊remainingSec / 60⌋).toNat
      let ss : Nat := (⌊remainingSec⌋ % 60).toNat
      "ETA " ++ pad2 mm ++ ":" ++ pad2 ss
    else "ETA —"
  let completed := j.present ∧ 0 < total ∧ total ≤ bytes
  { widthPct := if completed then 100 else pct,
    percentText := if completed then "100%" else toString pct ++ "%",
    sizesText := sizes,
    etaText := eta,
    rateMBps := mbps,
    completed := completed,
    timerCleared := completed,
    removeDelayMs := if completed then some 2500 else none,
    onCompleteInvoked := completed,
    lastBytes := bytes,
    lastTimeMs := nowMs }

/-! ### The progress panel: rows and timers -/

/-- State of the singleton progress panel: the `data-key` attributes of the
entry rows in DOM order, and the keys of the live `setInterval` timers (one
element per `setInterval` call not yet cleared). -/
structure PanelState where
  rows : List String
  timers : List String
deriving DecidableEq, Repr

/-- Embedding of `createOrUpdateProgress` (lines 389-491) at the panel-state
level: a row for the key is created only when none exists (lines 404-428),
but `setInterval` (line 440) starts a new timer unconditionally on every
call. -/
def createOrUpdateProgress (s : PanelState) (key : String) : PanelState :=
  { rows := if key ∈ s.rows then s.rows else s.rows ++ [key],
    timers := s.timers ++ [key] }

/-- Embedding of the close-button handler (line 427), whose whole body is
`row.remove()`: the key's row leaves the panel; the timer list is untouched
and the returned list of HTTP requests issued by the handler is empty. -/
def dismissEntry (s : PanelState) (key : String) : PanelState × List String :=
  ({ s with rows := s.rows.erase key }, [])

/-- Structural facts true of every URL the modelled parser produces; they are
exactly what is needed to re-parse a serialised URL. -/
def WFURL (m : URLM) : Prop :=
  m.scheme ≠ [] ∧ m.scheme.all Char.isAlpha = true ∧
  m.host ≠ [] ∧ (∀ c ∈ m.host, hostStop c = false) ∧
  m.host.any badHostChar = false ∧
  m.pathname.head? = some '/' ∧ (∀ c ∈ m.pathname, (c != '?') = true)

/-! ### Helper lemmas about the string primitives -/

theorem splitFirst_sep (b : List Char) :
    ∀ a : List Char, (∀ c ∈ a, c ≠ ':') →
      splitFirst schemeSep (a ++ (schemeSep ++ b)) = some (a, b)
  | [], _ => by simp [splitFirst, schemeSep, List.isPrefixOf]
  | c :: a, h => by
    have hc : (':' : Char) ≠ c := Ne.symm (h c (List.mem_cons_self ..))
    have ih := splitFirst_sep b a (fun x hx => h x (List.mem_cons_of_mem _ hx))
    rw [List.cons_append, splitFirst]
    rw [show schemeSep.isPrefixOf (c :: (a ++ (schemeSep ++ b))) = false by
      simp [schemeSep, List.isPrefixOf, beq_eq_false_iff_ne.mpr hc]]
    rw [ih]
    simp

theorem mem_replaceFirst {pat rep : List Char} :
    ∀ {l : List Char} {c : Char}, c ∈ replaceFirst pat rep l → c ∈ l ∨ c ∈ rep
  | [], c, h => by simp [replaceFirst] at h
  | x :: xs, c, h => by
    rw [replaceFirst] at h
    split at h
    · rcases List.mem_append.mp h with h1 | h2
      · exact .inr h1
      · exact .inl (List.drop_subset _ _ h2)
    · rcases List.mem_cons.mp h with h1 | h2
      · exact .inl (h1 ▸ List.mem_cons_self ..)
      · rcases mem_replaceFirst h2 with h3 | h4
        · exact .inl (List.mem_cons_of_mem _ h3)
        · exact .inr h4

theorem replaceFirst_head {pat rep l : List Char} (hl : l.head? = some '/')
    (hr : rep.head? = some '/') : (replaceFirst pat rep l).head? = some '/' := by
  cases l with
  | nil => simp at hl
  | cons x xs =>
    rw [replaceFirst]
    split
    · cases rep with
      | nil => simp at hr
      | cons r rs => simpa using hr
    · simpa using hl

theorem mem_condReplace {pat rep p : List Char} {c : Char}
    (h : c ∈ (if includesSub pat p then replaceFirst pat rep p else p)) :
    c ∈ p ∨ c ∈ rep := by
  split at h
  · exact mem_replaceFirst h
  · exact .inl h

theorem condReplace_head {pat rep p : List Char} (hp : p.head? = some '/')
    (hr : rep.head? = some '/') :
    (if includesSub pat p then replaceFirst pat rep p else p).head? = some '/' := by
  split
  · exact replaceFirst_head hp hr
  · exact hp

theorem rewritePath_head {p : List Char} (hp : p.head? = some '/') :
    (rewritePath p).head? = some '/' :=
  condReplace_head (condReplace_head hp rfl) rfl

theorem mem_rewritePath {p : List Char} {c : Char} (h : c ∈ rewritePath p) :
    c ∈ p ∨ c ∈ resolveSeg := by
  rcases mem_condReplace h with h1 | h2
  · exact mem_condReplace h1
  · exact .inr h2

theorem splitOnChar_ne_nil (sep : Char) : ∀ l, splitOnChar sep l ≠ []
  | [] => by simp [splitOnChar]
  | c :: cs => by
    rw [splitOnChar]
    cases h : splitOnChar sep cs with
    | nil => exact absurd h (splitOnChar_ne_nil sep cs)
    | cons r rs => by_cases hc : c = sep <;> simp [h, hc]

theorem splitOnChar_append (sep : Char) (b : List Char) :
    ∀ a, splitOnChar sep (a ++ sep :: b) = splitOnChar sep a ++ splitOnChar sep b
  | [] => by
    rw [List.nil_append, splitOnChar]
    cases h : splitOnChar sep b with
    | nil => exact absurd h (splitOnChar_ne_nil sep b)
    | cons r rs => simp [splitOnChar, h]
  | c :: a => by
    have ih := splitOnChar_append sep b a
    rw [List.cons_append, splitOnChar, ih, splitOnChar]
    cases h : splitOnChar sep a with
    | nil => exact absurd h (splitOnChar_ne_nil sep a)
    | cons r rs => by_cases hc : c = sep <;> simp [h, hc]

theorem searchHasDownload_appendDownload (s : Option (List Char)) :
    searchHasDownload (some (appendDownload s)) = true := by
  cases s with
  | none => decide
  | some q =>
    cases q with
    | nil => decide
    | cons c cs =>
      have hd : (splitOnChar '&' downloadParam).any
          (fun p => paramName p == "download".data) = true := by decide
      have happ := splitOnChar_append '&' downloadParam (c :: cs)
      show (splitOnChar '&' (appendDownload (some (c :: cs)))).any
        (fun p => paramName p == "download".data) = true
      rw [show appendDownload (some (c :: cs)) = (c :: cs) ++ '&' :: downloadParam
        from rfl]
      rw [happ, List.any_append, hd, Bool.or_true]

/-! ### Soundness and round-trip of the URL model -/

theorem mem_takeWhile_pred {p : Char → Bool} :
    ∀ {l : List Char} {c : Char}, c ∈ l.takeWhile p → p c = true
  | [], c, h => by simp at h
  | x :: xs, c, h => by
    rw [List.takeWhile_cons] at h
    split at h
    · rename_i hx
      rcases List.mem_cons.mp h with h1 | h2
      · rw [h1]; exact hx
      · exact mem_takeWhile_pred h2
    · cases h

theorem head?_of_takeWhile_cons {p : Char → Bool} {l t : List Char} {c : Char}
    (h : l.takeWhile p = c :: t) : l.head? = some c := by
  cases l with
  | nil => simp at h
  | cons x xs =>
    rw [List.takeWhile_cons] at h
    split at h
    · injection h with h1 _
      rw [List.head?_cons, h1]
    · cases h

theorem takeWhile_eq_self_of_all {p : Char → Bool} :
    ∀ {l : List Char}, (∀ c ∈ l, p c = true) → l.takeWhile p = l
  | [], _ => rfl
  | c :: cs, h => by
    rw [List.takeWhile_cons, if_pos (h c (List.mem_cons_self ..)),
      takeWhile_eq_self_of_all (fun x hx => h x (List.mem_cons_of_mem _ hx))]

theorem dropWhile_eq_nil_of_all {p : Char → Bool} :
    ∀ {l : List Char}, (∀ c ∈ l, p c = true) → l.dropWhile p = []
  | [], _ => rfl
  | c :: cs, h => by
    rw [List.dropWhile_cons, if_pos (h c (List.mem_cons_self ..)),
      dropWhile_eq_nil_of_all (fun x hx => h x (List.mem_cons_of_mem _ hx))]

theorem parse_wf {s : List Char} {m : URLM} (h : parseURLChars s = some m) :
    WFURL m := by
  rw [parseURLChars] at h
  cases hsp : splitFirst schemeSep s with
  | none => rw [hsp] at h; cases h
  | some pr =>
    obtain ⟨sch, rest⟩ := pr
    rw [hsp] at h
    simp only at h
    split at h
    · cases h
    · rename_i hcond1
      split at h
      · cases h
      · rename_i hcond2
        rw [Bool.or_eq_true, not_or] at hcond1 hcond2
        obtain ⟨hsch1, hsch2⟩ := hcond1
        obtain ⟨hh1, hh2⟩ := hcond2
        injection h with h
        subst h
        refine ⟨?_, ?_, ?_, ?_, ?_, ?_, ?_⟩ <;> dsimp only
        · simpa [List.isEmpty_iff] using hsch1
        · simpa using hsch2
        · simpa [List.isEmpty_iff] using hh1
        · intro c hc
          have hx := mem_takeWhile_pred hc
          simpa using hx
        · simpa using hh2
        · split
          · rfl
          · rename_i hpr
            rw [List.isEmpty_iff] at hpr
            cases hpw : (rest.dropWhile fun c => !hostStop c).takeWhile
                (fun c => c != '?') with
            | nil => exact absurd hpw hpr
            | cons c0 t =>
              have hq := mem_takeWhile_pred
                (show c0 ∈ (rest.dropWhile fun c => !hostStop c).takeWhile
                  (fun c => c != '?') by rw [hpw]; exact List.mem_cons_self ..)
              have hhead : (rest.dropWhile fun c => !hostStop c).head? = some c0 :=
                head?_of_takeWhile_cons hpw
              have hstop := List.head?_dropWhile_not (fun c => !hostStop c) rest
              rw [hhead] at hstop
              simp only at hstop
              have hstop2 : hostStop c0 = true := by
                revert hstop; cases hostStop c0 <;> simp
              have hc0 : c0 = '/' := by
                have hor : c0 = '/' ∨ c0 = '?' := by
                  rw [hostStop, Bool.or_eq_true, beq_iff_eq, beq_iff_eq] at hstop2
                  exact hstop2
                rcases hor with h1 | h1
                · exact h1
                · rw [h1] at hq; simp at hq
              simp [hc0]
        · intro c hc
          rcases hsplitif : (rest.dropWhile fun c => !hostStop c).takeWhile
              (fun c => c != '?') with _ | ⟨c0, t⟩
          · rw [hsplitif] at hc
            simp only [List.isEmpty_nil, if_true, List.mem_singleton] at hc
            rw [hc]; rfl
          · rw [hsplitif] at hc
            simp only [List.isEmpty_cons, Bool.false_eq_true, if_false] at hc
            have hx := mem_takeWhile_pred (hsplitif ▸ hc)
            simpa using hx

theorem parse_round_trip {m : URLM} (h : WFURL m) :
    parseURLChars (urlToChars m) = some m := by
  obtain ⟨h1, h2, h3, h4, h5, h6, h7⟩ := h
  obtain ⟨sch, host, path, search⟩ := m
  dsimp only at h1 h2 h3 h4 h5 h6 h7
  cases path with
  | nil => cases h6
  | cons p0 pt =>
  have hp0 : p0 = '/' := by simpa using h6
  subst hp0
  have hnocolon : ∀ c ∈ sch, c ≠ ':' := by
    intro c hc
    have ha := List.all_eq_true.mp h2 c hc
    intro hcontra
    rw [hcontra] at ha
    simp [Char.isAlpha, Char.isUpper, Char.isLower] at ha
  have hq : ∀ c ∈ ('/' :: pt), ((fun c => c != '?') c) = true := h7
  have hhostkeep : ∀ c ∈ host, ((fun c => !hostStop c) c) = true := by
    intro c hc
    simp [h4 c hc]
  cases search with
  | none =>
    have hsplit := splitFirst_sep (host ++ '/' :: pt) sch hnocolon
    rw [parseURLChars]
    rw [show urlToChars ⟨sch, host, '/' :: pt, none⟩ =
        sch ++ (schemeSep ++ (host ++ '/' :: pt)) by
      simp [urlToChars, List.append_assoc]]
    rw [hsplit]
    simp only
    rw [if_neg (by simp [h1, h2])]
    rw [List.takeWhile_append_of_pos hhostkeep,
      List.dropWhile_append_of_pos hhostkeep]
    rw [show (('/' :: pt).takeWhile fun c => !hostStop c) = [] by
      simp [List.takeWhile_cons, hostStop]]
    rw [show (('/' :: pt).dropWhile fun c => !hostStop c) = '/' :: pt by
      simp [List.dropWhile_cons, hostStop]]
    rw [List.append_nil]
    rw [if_neg (by simp [List.isEmpty_iff, h3, h5])]
    rw [takeWhile_eq_self_of_all hq, dropWhile_eq_nil_of_all hq]
    simp
  | some q =>
    have hsplit := splitFirst_sep (host ++ (('/' :: pt) ++ '?' :: q)) sch hnocolon
    rw [parseURLChars]
    rw [show urlToChars ⟨sch, host, '/' :: pt, some q⟩ =
        sch ++ (schemeSep ++ (host ++ (('/' :: pt) ++ '?' :: q))) by
      simp [urlToChars, List.append_assoc]]
    rw [hsplit]
    simp only
    rw [if_neg (by simp [h1, h2])]
    rw [List.takeWhile_append_of_pos hhostkeep,
      List.dropWhile_append_of_pos hhostkeep]
    rw [show ((('/' :: pt) ++ '?' :: q).takeWhile fun c => !hostStop c) = [] by
      rw [List.cons_append, List.takeWhile_cons]
      simp [hostStop]]
    rw [show ((('/' :: pt) ++ '?' :: q).dropWhile fun c => !hostStop c) =
        ('/' :: pt) ++ '?' :: q by
      rw [List.cons_append, List.dropWhile_cons]
      simp [hostStop]]
    rw [List.append_nil]
    rw [if_neg (by simp [List.isEmpty_iff, h3, h5])]
    rw [List.takeWhile_append_of_pos hq, List.dropWhile_append_of_pos hq]
    rw [show (('?' :: q).takeWhile fun c => c != '?') = [] by
      simp [List.takeWhile_cons]]
    rw [show (('?' :: q).dropWhile fun c => c != '?') = '?' :: q by
      simp [List.dropWhile_cons]]
    rw [List.append_nil]
    simp

/-! ### Behaviour of the normalizer on each branch -/

theorem normalize_of_parse_none {u : String} (h : parseURLChars u.data = none) :
    normalizeDownloadUrl u = u := by
  rw [normalizeDownloadUrl]
  split
  · rename_i hu
    exact hu.symm
  · simp [h]

theorem normalize_of_not_hf {u : String} {m : URLM}
    (hp : parseURLChars u.data = some m)
    (hh : hfHost.isSuffixOf m.host = false) :
    normalizeDownloadUrl u = u := by
  rw [normalizeDownloadUrl]
  split
  · rename_i hu
    exact hu.symm
  · simp [hp, hh]

theorem resolveSeg_no_qmark : ∀ c ∈ resolveSeg, (c != '?') = true := by decide

theorem normalize_hf_idem_step {sch host path : List Char}
    {search : Option (List Char)}
    (hwf : WFURL ⟨sch, host, path, search⟩)
    (hh : hfHost.isSuffixOf host = true)
    (hb : includesSub blobSeg (rewritePath path) = false)
    (ht : includesSub treeSeg (rewritePath path) = false) :
    normalizeDownloadUrl (String.mk (urlToChars ⟨sch, host, rewritePath path,
      if searchHasDownload search then search else some (appendDownload search)⟩)) =
    String.mk (urlToChars ⟨sch, host, rewritePath path,
      if searchHasDownload search then search else some (appendDownload search)⟩) := by
  obtain ⟨w1, w2, w3, w4, w5, w6, w7⟩ := hwf
  dsimp only at w1 w2 w3 w4 w5 w6 w7
  have hwf2 : WFURL ⟨sch, host, rewritePath path,
      if searchHasDownload search then search else some (appendDownload search)⟩ := by
    refine ⟨w1, w2, w3, w4, w5, ?_, ?_⟩ <;> dsimp only
    · exact rewritePath_head w6
    · intro c hc
      rcases mem_rewritePath hc with h1 | h2
      · exact w7 c h1
      · exact resolveSeg_no_qmark c h2
  have hrt := parse_round_trip hwf2
  have hdl : searchHasDownload (if searchHasDownload search then search
      else some (appendDownload search)) = true := by
    split
    · rename_i hsd; exact hsd
    · exact searchHasDownload_appendDownload search
  have hrp : rewritePath (rewritePath path) = rewritePath path := by
    conv_lhs => rw [rewritePath]
    rw [hb]
    simp only [Bool.false_eq_true, if_false]
    rw [ht]
    simp
  have hne : String.mk (urlToChars ⟨sch, host, rewritePath path,
      if searchHasDownload search then search
      else some (appendDownload search)⟩) ≠ "" := by
    intro hcontra
    have hdata : urlToChars ⟨sch, host, rewritePath path,
        if searchHasDownload search then search
        else some (appendDownload search)⟩ = [] := congrArg String.data hcontra
    rw [urlToChars] at hdata
    cases sch with
    | nil => exact w1 rfl
    | cons a as => simp at hdata
  rw [normalizeDownloadUrl, if_neg hne]
  rw [show (String.mk (urlToChars ⟨sch, host, rewritePath path,
      if searchHasDownload search then search
      else some (appendDownload search)⟩)).data =
      urlToChars ⟨sch, host, rewritePath path,
        if searchHasDownload search then search
        else some (appendDownload search)⟩ from rfl]
  rw [hrt]
  simp only
  rw [if_pos (show hfHost.isSuffixOf
      (⟨sch, host, rewritePath path,
        if searchHasDownload search then search
        else some (appendDownload search)⟩ : URLM).host = true from hh)]
  simp [hrp, hdl]

/-! ### Claims C7 and C8: the URL Normalizer -/

/-- C7 counterexample: `normalizeDownloadUrl` is not idempotent.  The code
replaces only the first `/blob/` occurrence, so for
`https://huggingface.co/a/blob/blob/x` a first pass yields
`…/a/resolve/blob/x?download=true` and a second pass rewrites again to
`…/a/resolve/resolve/x?download=true`. -/
theorem c7_counterexample :
    normalizeDownloadUrl (normalizeDownloadUrl "https://huggingface.co/a/blob/blob/x") ≠
      normalizeDownloadUrl "https://huggingface.co/a/blob/blob/x" := by
  decide

/-- C7 (amended): the normalizer is idempotent on every input whose
once-normalized path no longer contains a `/blob/` or `/tree/` segment — in
particular on every unparseable input and every non-hub URL, which pass
through unchanged; it is not idempotent in general (see the counterexample). -/
theorem c7_normalize_idem (u : String)
    (h : ∀ m, parseURLChars u.data = some m → hfHost.isSuffixOf m.host = true →
      includesSub blobSeg (rewritePath m.pathname) = false ∧
      includesSub treeSeg (rewritePath m.pathname) = false) :
    normalizeDownloadUrl (normalizeDownloadUrl u) = normalizeDownloadUrl u := by
  by_cases hu : u = ""
  · subst hu
    rfl
  · cases hp : parseURLChars u.data with
    | none =>
      rw [normalize_of_parse_none hp]
      exact normalize_of_parse_none hp
    | some m =>
      by_cases hh : hfHost.isSuffixOf m.host = true
      · obtain ⟨hb, ht⟩ := h m hp hh
        have hwfm := parse_wf hp
        obtain ⟨sch, host, path, search⟩ := m
        dsimp only at hh hb ht
        have hnorm : normalizeDownloadUrl u =
            String.mk (urlToChars ⟨sch, host, rewritePath path,
              if searchHasDownload search then search
              else some (appendDownload search)⟩) := by
          rw [normalizeDownloadUrl, if_neg hu]
          simp [hp, hh]
        rw [hnorm]
        exact normalize_hf_idem_step hwfm hh hb ht
      · have hh2 : hfHost.isSuffixOf m.host = false := by
          revert hh; cases hfHost.isSuffixOf m.host <;> simp
        rw [normalize_of_not_hf hp hh2]
        exact normalize_of_not_hf hp hh2

/-- C7 witness: idempotence holds at the canonical hub URL. -/
theorem c7_normalize_idem_witness :
    normalizeDownloadUrl
        (normalizeDownloadUrl "https://huggingface.co/X/blob/main/f.safetensors") =
      normalizeDownloadUrl "https://huggingface.co/X/blob/main/f.safetensors" := by
  refine c7_normalize_idem _ ?_
  intro m hm hh
  have hx : parseURLChars ("https://huggingface.co/X/blob/main/f.safetensors").data =
      some ⟨"https".data, "huggingface.co".data,
        "/X/blob/main/f.safetensors".data, none⟩ := by decide
  rw [hx] at hm
  injection hm with hm
  subst hm
  constructor <;> decide

/-- C8 counterexample: the claim restricts rewriting to the host
`huggingface.co`, but the code tests `hostname.endsWith('huggingface.co')`
with no dot boundary, so the distinct host `evilhuggingface.co` is also
rewritten rather than passed through unchanged. -/
theorem c8_counterexample :
    (∃ m, parseURLChars "https://evilhuggingface.co/a/blob/x".data = some m ∧
      m.host ≠ "huggingface.co".data) ∧
    normalizeDownloadUrl "https://evilhuggingface.co/a/blob/x" ≠
      "https://evilhuggingface.co/a/blob/x" := by
  constructor
  · exact ⟨⟨"https".data, "evilhuggingface.co".data, "/a/blob/x".data, none⟩,
      by decide, by decide⟩
  · decide

/-- C8 (amended): the normalizer is total by construction and returns the
input unchanged for every unparseable input and for every parsed URL whose
host does not end with the suffix `huggingface.co` (hosts merely ending in
that suffix, such as subdomains or `evilhuggingface.co`, are rewritten). -/
theorem c8_passthrough (u : String) :
    (parseURLChars u.data = none → normalizeDownloadUrl u = u) ∧
    (∀ m, parseURLChars u.data = some m → hfHost.isSuffixOf m.host = false →
      normalizeDownloadUrl u = u) :=
  ⟨fun h => normalize_of_parse_none h, fun _ hp hh => normalize_of_not_hf hp hh⟩

/-- C8 witness: pass-through at an unparseable input and at a non-hub URL. -/
theorem c8_passthrough_witness :
    normalizeDownloadUrl "not a url" = "not a url" ∧
    normalizeDownloadUrl "https://example.com/a/blob/x" =
      "https://example.com/a/blob/x" := by
  constructor
  · exact (c8_passthrough "not a url").1 (by decide)
  · exact (c8_passthrough "https://example.com/a/blob/x").2
      ⟨"https".data, "example.com".data, "/a/blob/x".data, none⟩
      (by decide) (by decide)

/-! ### Claim C1: rendering of a failed status -/

/-- C1: for the status response `{present:false, state:"failed",
error:"disk full"}` the embedded `query` rendering produces label `Install`,
re-enabled, with no tooltip — the `failed` state is never examined and no
tooltip is ever assigned, so the control does not read `Retry Install` and
does not carry the server error, contradicting the claim (and the repository
README's description of a `Retry Install` button for failed downloads). -/
theorem c1_failed_state_renders_install :
    queryRender ⟨false, some "failed", none, none, none, some "disk full"⟩ =
      ⟨"Install", false, false, none⟩ ∧
    (queryRender ⟨false, some "failed", none, none, none,
      some "disk full"⟩).label ≠ "Retry Install" ∧
    (queryRender ⟨false, some "failed", none, none, none,
      some "disk full"⟩).tooltip = none := by
  refine ⟨rfl, ?_, rfl⟩
  decide

/-! ### Claim C2: which endpoint a click calls -/

/-- C2 counterexample: with displayed label `Install` (not `Uninstall`) but a
captured status response with `present = true`, the click handler posts to
`/models/uninstall` — the endpoint and body follow the `present` flag, not
the label. -/
theorem c2_counterexample :
    (runClick ⟨"Install", false, false, "",
        ⟨true, none, some "loras", some "models/loras/x.safetensors", none, none⟩,
        some "loras", some "x.safetensors", "https://example.com/f"⟩
      ⟨true, 200, none, none⟩ none ⟨true, 200, none, none⟩
      ⟨true, 200, none, none⟩).posts =
      [("/models/uninstall", .uninstall (some "loras") "x.safetensors")] ∧
    jsToLower (jsTrim "Install") ≠ "uninstall" := by
  constructor
  · rfl
  · decide

/-- Structural fact about the click handler: its POSTs to the model endpoints
are zero, one or two copies of the single `present`-determined request. -/
theorem runClick_posts_shape (inp : ClickInputs) (resp : HttpResp)
    (tokenDialog : Option String) (loginResp retryResp : HttpResp) :
    (runClick inp resp tokenDialog loginResp retryResp).posts = [] ∨
    ∃ b, clickBody inp = some b ∧
      ((runClick inp resp tokenDialog loginResp retryResp).posts =
        [(clickEndpoint inp.js, b)] ∨
       (runClick inp resp tokenDialog loginResp retryResp).posts =
        [(clickEndpoint inp.js, b), (clickEndpoint inp.js, b)]) := by
  rw [runClick]
  cases hb : clickBody inp with
  | none => exact .inl rfl
  | some body =>
    refine .inr ⟨body, rfl, ?_⟩
    cases tokenDialog with
    | none => split_ifs <;> simp [clickFail]
    | some t =>
      by_cases ht : jsTrim t = "" <;> split_ifs <;> simp [clickFail, ht]

/-- C2 (amended): every POST the click handler issues to a model endpoint has
its endpoint and body determined by the `present` flag of the captured status
response (`clickEndpoint`/`clickBody`); the displayed label only selects the
busy/reset UI handling and the post-success behaviour. -/
theorem c2_endpoint_from_present_flag (inp : ClickInputs) (resp : HttpResp)
    (tokenDialog : Option String) (loginResp retryResp : HttpResp)
    (e : String) (b : PostBody)
    (hmem : (e, b) ∈ (runClick inp resp tokenDialog loginResp retryResp).posts) :
    e = clickEndpoint inp.js ∧ clickBody inp = some b := by
  rcases runClick_posts_shape inp resp tokenDialog loginResp retryResp with
    h0 | ⟨body, hb, h1 | h2⟩
  · rw [h0] at hmem
    cases hmem
  · rw [h1] at hmem
    have hpair := List.mem_singleton.mp hmem
    rw [Prod.mk.injEq] at hpair
    exact ⟨hpair.1, by rw [hpair.2]; exact hb⟩
  · rw [h2] at hmem
    rcases List.mem_cons.mp hmem with hpair | hmem2
    · rw [Prod.mk.injEq] at hpair
      exact ⟨hpair.1, by rw [hpair.2]; exact hb⟩
    · have hpair := List.mem_singleton.mp hmem2
      rw [Prod.mk.injEq] at hpair
      exact ⟨hpair.1, by rw [hpair.2]; exact hb⟩

/-- C2 witness: a concrete install click posts to the `present`-determined
endpoint with the `present`-determined body. -/
theorem c2_endpoint_from_present_flag_witness :
    "/models/install" =
      clickEndpoint ⟨false, none, none, none, none, none⟩ ∧
    clickBody ⟨"Install", false, false, "", ⟨false, none, none, none, none, none⟩,
        some "loras", some "x.safetensors", "https://example.com/f"⟩ =
      some (.install "x.safetensors" "loras" "https://example.com/f" none) :=
  c2_endpoint_from_present_flag
    ⟨"Install", false, false, "", ⟨false, none, none, none, none, none⟩,
      some "loras", some "x.safetensors", "https://example.com/f"⟩
    ⟨true, 200, none, none⟩ none ⟨true, 200, none, none⟩ ⟨true, 200, none, none⟩
    "/models/install" (.install "x.safetensors" "loras" "https://example.com/f" none)
    (by decide)

/-! ### Claims C3 and C4: the Progress Tracker tick -/

theorem pct_at_complete {bytes total : Nat} (h1 : 0 < total) (h2 : total ≤ bytes) :
    min 100 (jsRound ((bytes : ℚ) / (total : ℚ) * 100)).toNat = 100 := by
  have h1q : (0 : ℚ) < (total : ℚ) := by exact_mod_cast h1
  have hbq : (total : ℚ) ≤ (bytes : ℚ) := by exact_mod_cast h2
  have hone : (1 : ℚ) ≤ (bytes : ℚ) / (total : ℚ) := (one_le_div h1q).mpr hbq
  have hq : (100 : ℚ) ≤ (bytes : ℚ) / (total : ℚ) * 100 := by nlinarith
  have hr : (100 : ℤ) ≤ jsRound ((bytes : ℚ) / (total : ℚ) * 100) := by
    rw [jsRound]
    refine Int.le_floor.mpr ?_
    push_cast
    linarith
  have hn : (100 : ℕ) ≤ (jsRound ((bytes : ℚ) / (total : ℚ) * 100)).toNat := by
    have := Int.toNat_le_toNat hr
    simpa using this
  exact min_eq_left hn

/-- C3 counterexample: with the effective expected total equal to 0 and
50 000 000 bytes downloaded, the tick reports the percentage as the literal
`0%` (progress-bar width 0), not as unknown. -/
theorem c3_counterexample :
    (tick ⟨0, 0, 0, 0⟩
      ⟨false, some "downloading", none, none, some 50000000, none⟩
      2000).percentText = "0%" ∧
    (tick ⟨0, 0, 0, 0⟩
      ⟨false, some "downloading", none, none, some 50000000, none⟩
      2000).widthPct = 0 := by
  constructor <;> rfl

/-- C3 (amended): when the effective expected total is 0 the tick reports the
percentage as the literal `0%` (the unknown markers appear only in the sizes
text and the ETA); when the total is positive the reported percentage is
`min(100, round(bytes / total * 100))`. -/
theorem c3_percentage (st : TickState) (j : StatusResult) (nowMs : Nat) :
    (effTotal st = 0 →
      (tick st j nowMs).percentText = "0%" ∧ (tick st j nowMs).widthPct = 0) ∧
    (0 < effTotal st →
      (tick st j nowMs).percentText =
        toString (min 100
          (jsRound ((j.size.getD 0 : ℚ) / (effTotal st : ℚ) * 100)).toNat) ++ "%") := by
  constructor
  · intro h0
    constructor
    · simp [tick, h0]
      rfl
    · simp [tick, h0]
  · intro hpos
    by_cases hcomp : (j.present = true ∧ 0 < effTotal st ∧
        effTotal st ≤ j.size.getD 0)
    · have hpct := pct_at_complete hpos hcomp.2.2
      simp [tick, hpos, hcomp, hpct]
      rfl
    · simp [tick, hpos, hcomp]
      intro h1 h2
      exact absurd ⟨h1, hpos, h2⟩ hcomp

/-- C3 witness: 50 000 000 of 100 000 000 bytes is reported as exactly 50%. -/
theorem c3_percentage_witness :
    (tick ⟨0, 0, 100000000, 0⟩
      ⟨false, some "downloading", none, none, some 50000000, none⟩
      2000).percentText = "50%" := by
  have h := (c3_percentage ⟨0, 0, 100000000, 0⟩
    ⟨false, some "downloading", none, none, some 50000000, none⟩ 2000).2
    (by decide)
  rw [h]
  norm_num [effTotal, jsRound]
  rfl

/-- C4: a tick declares completion iff the poll reports the item present, the
effective expected total is positive and the byte count has reached it; it
never completes while the total is 0; and on completion the timer is
cancelled, the display is pinned at 100%, removal is scheduled after the
fixed 2500 ms delay, and the completion callback is invoked. -/
theorem c4_completion (st : TickState) (j : StatusResult) (nowMs : Nat) :
    ((tick st j nowMs).completed = true ↔
      (j.present = true ∧ 0 < effTotal st ∧ effTotal st ≤ j.size.getD 0)) ∧
    (effTotal st = 0 → (tick st j nowMs).completed = false) ∧
    ((tick st j nowMs).completed = true →
      (tick st j nowMs).timerCleared = true ∧
      (tick st j nowMs).percentText = "100%" ∧
      (tick st j nowMs).widthPct = 100 ∧
      (tick st j nowMs).removeDelayMs = some 2500 ∧
      (tick st j nowMs).onCompleteInvoked = true) := by
  refine ⟨?_, ?_, ?_⟩
  · simp [tick]
  · intro h0
    simp [tick, h0]
  · intro hc
    have hcp : (j.present = true ∧ 0 < effTotal st ∧
        effTotal st ≤ j.size.getD 0) := by
      simpa [tick] using hc
    refine ⟨?_, ?_, ?_, ?_, ?_⟩ <;> simp [tick, hcp]

/-- C4 witness: a present poll at 100 000 000 of 100 000 000 bytes completes
and produces the completion effects. -/
theorem c4_completion_witness :
    (tick ⟨0, 0, 100000000, 0⟩
      ⟨true, none, none, none, some 100000000, none⟩ 2000).completed = true ∧
    (tick ⟨0, 0, 100000000, 0⟩
      ⟨true, none, none, none, some 100000000, none⟩ 2000).percentText = "100%" ∧
    (tick ⟨0, 0, 100000000, 0⟩
      ⟨true, none, none, none, some 100000000, none⟩ 2000).removeDelayMs =
      some 2500 := by
  have h := c4_completion ⟨0, 0, 100000000, 0⟩
    ⟨true, none, none, none, some 100000000, none⟩ 2000
  have hc := h.1.mpr (by refine ⟨rfl, by decide, by decide⟩)
  obtain ⟨ht, hp, hw, hr, ho⟩ := h.2.2 hc
  exact ⟨hc, hp, hr⟩

/-! ### Claim C5: the authentication sub-flow and single retry -/

/-- C5: when the first POST fails with 401 and error code `auth_required`,
the token dialog is opened; with a non-empty trimmed token and a successful
login the same request is posted exactly once more (never more than two
POSTs under any outcome); a failed retry surfaces the retry's failure
message (not the original 401 body) and starts no tracker; a cancelled or
empty prompt, or a failed login, issues no retry and takes the failure path:
no tracker, an alert, and a re-enabled control. -/
theorem c5_auth_retry (inp : ClickInputs) (resp : HttpResp)
    (tokenDialog : Option String) (loginResp retryResp : HttpResp)
    (b : PostBody) (hb : clickBody inp = some b)
    (hok : resp.ok = false) (hstatus : resp.status = 401)
    (hcode : resp.errorCode = some "auth_required") :
    (runClick inp resp tokenDialog loginResp retryResp).authPrompted = true ∧
    (runClick inp resp tokenDialog loginResp retryResp).posts.length ≤ 2 ∧
    (∀ t, tokenDialog = some t → jsTrim t ≠ "" → loginResp.ok = true →
      ((runClick inp resp tokenDialog loginResp retryResp).posts =
        [(clickEndpoint inp.js, b), (clickEndpoint inp.js, b)] ∧
       (retryResp.ok = false →
         (runClick inp resp tokenDialog loginResp retryResp).alertMsg =
           some (retryResp.error.getD "operation failed") ∧
         (runClick inp resp tokenDialog loginResp retryResp).trackerKey = none) ∧
       (retryResp.ok = true →
         (runClick inp resp tokenDialog loginResp retryResp).trackerKey =
           some (progressKey inp.directory inp.filename)))) ∧
    ((tokenDialog = none ∨ (∀ t, tokenDialog = some t → jsTrim t = "") ∨
        loginResp.ok = false) →
      (runClick inp resp tokenDialog loginResp retryResp).posts =
        [(clickEndpoint inp.js, b)] ∧
      (runClick inp resp tokenDialog loginResp retryResp).trackerKey = none ∧
      ((runClick inp resp tokenDialog loginResp retryResp).alertMsg).isSome = true ∧
      (runClick inp resp tokenDialog loginResp retryResp).btnDisabled = false) := by
  have hcond : resp.status = 401 ∧ resp.errorCode = some "auth_required" :=
    ⟨hstatus, hcode⟩
  rw [runClick, hb]
  simp only [hok, Bool.false_eq_true, if_false, if_pos hcond]
  cases tokenDialog with
  | none =>
    refine ⟨rfl, by simp [clickFail], ?_, ?_⟩
    · intro t htd
      cases htd
    · intro _
      simp [clickFail]
  | some t =>
    dsimp only
    by_cases hte : jsTrim t = ""
    · rw [if_neg (fun hc => hc hte)]
      refine ⟨rfl, by simp [clickFail], ?_, ?_⟩
      · intro t2 htd htne _
        injection htd with htd
        exact absurd (htd ▸ hte) htne
      · intro _
        simp [clickFail]
    · rw [if_pos hte]
      by_cases hlok : loginResp.ok = true
      · rw [if_pos hlok]
        by_cases hrok : retryResp.ok = true
        · rw [if_pos hrok]
          refine ⟨rfl, by simp, ?_, ?_⟩
          · intro t2 htd _ _
            exact ⟨rfl, fun hrf => absurd hrok (by simp [hrf]), fun _ => rfl⟩
          · intro hdisj
            rcases hdisj with h1 | h2 | h3
            · cases h1
            · exact absurd (h2 t rfl) hte
            · exact absurd hlok (by simp [h3])
        · rw [if_neg hrok]
          refine ⟨rfl, by simp [clickFail], ?_, ?_⟩
          · intro t2 htd _ _
            refine ⟨by simp [clickFail], fun _ => ⟨rfl, rfl⟩,
              fun hrt => absurd hrt hrok⟩
          · intro hdisj
            rcases hdisj with h1 | h2 | h3
            · cases h1
            · exact absurd (h2 t rfl) hte
            · exact absurd hlok (by simp [h3])
      · rw [if_neg hlok]
        refine ⟨rfl, by simp [clickFail], ?_, ?_⟩
        · intro t2 htd htne hlok2
          exact absurd hlok2 hlok
        · intro _
          simp [clickFail]

/-- C5 witness: a concrete 401 + auth-required install whose retry fails
surfaces the retry's message and posted exactly twice. -/
theorem c5_auth_retry_witness :
    (runClick ⟨"Install", false, false, "",
        ⟨false, none, none, none, none, none⟩,
        some "loras", some "x.safetensors", "https://example.com/f"⟩
      ⟨false, 401, some "auth_required", some "original 401 message"⟩
      (some " tok ") ⟨true, 200, none, none⟩
      ⟨false, 500, none, some "second failure"⟩).posts.length ≤ 2 ∧
    (runClick ⟨"Install", false, false, "",
        ⟨false, none, none, none, none, none⟩,
        some "loras", some "x.safetensors", "https://example.com/f"⟩
      ⟨false, 401, some "auth_required", some "original 401 message"⟩
      (some " tok ") ⟨true, 200, none, none⟩
      ⟨false, 500, none, some "second failure"⟩).alertMsg =
      some "second failure" := by
  have h := c5_auth_retry ⟨"Install", false, false, "",
      ⟨false, none, none, none, none, none⟩,
      some "loras", some "x.safetensors", "https://example.com/f"⟩
    ⟨false, 401, some "auth_required", some "original 401 message"⟩
    (some " tok ") ⟨true, 200, none, none⟩
    ⟨false, 500, none, some "second failure"⟩
    (.install "x.safetensors" "loras"
      (normalizeDownloadUrl "https://example.com/f") none)
    rfl rfl rfl rfl
  refine ⟨h.2.1, ?_⟩
  have h3 := (h.2.2.1 " tok " rfl (by decide) rfl).2.1 rfl
  exact h3.1

/-! ### Claim C6: duplicate tracking -/

/-- C6 counterexample: calling `createOrUpdateProgress` twice for the same
key leaves a single panel row but two live timers for that key — the claim's
`no two concurrent polling timers` part fails. -/
theorem c6_counterexample :
    (createOrUpdateProgress
      (createOrUpdateProgress ⟨[], []⟩ "loras/x.safetensors")
      "loras/x.safetensors").rows = ["loras/x.safetensors"] ∧
    (createOrUpdateProgress
      (createOrUpdateProgress ⟨[], []⟩ "loras/x.safetensors")
      "loras/x.safetensors").timers =
      ["loras/x.safetensors", "loras/x.safetensors"] := by
  constructor <;> rfl

/-- C6 (amended): a second invocation for an already-tracked key reuses the
existing panel entry (no duplicate row), but unconditionally starts one more
polling timer for that key rather than reusing the running one. -/
theorem c6_track_existing (s : PanelState) (key : String) (h : key ∈ s.rows) :
    (createOrUpdateProgress s key).rows = s.rows ∧
    (createOrUpdateProgress s key).timers = s.timers ++ [key] := by
  constructor
  · simp [createOrUpdateProgress, h]
  · rfl

/-- C6 witness: re-tracking a present key keeps its single row and adds a
second timer. -/
theorem c6_track_existing_witness :
    (createOrUpdateProgress ⟨["k"], ["k"]⟩ "k").rows = ["k"] ∧
    (createOrUpdateProgress ⟨["k"], ["k"]⟩ "k").timers = ["k", "k"] := by
  have h := c6_track_existing ⟨["k"], ["k"]⟩ "k" (by decide)
  exact ⟨h.1, h.2⟩

/-! ### Claim C9: manual dismissal -/

/-- C9 counterexample: dismissing the only entry removes its row but leaves
its polling timer live — further status polls keep being issued, so the
claim's `polling timer is stopped` part fails. -/
theorem c9_counterexample :
    (dismissEntry (createOrUpdateProgress ⟨[], []⟩ "loras/x.safetensors")
      "loras/x.safetensors").1.rows = [] ∧
    (dismissEntry (createOrUpdateProgress ⟨[], []⟩ "loras/x.safetensors")
      "loras/x.safetensors").1.timers = ["loras/x.safetensors"] := by
  constructor <;> rfl

/-- C9 (amended): dismissal removes the entry's row, issues no HTTP request
of any kind (in particular no cancellation), and leaves every timer —
including the dismissed entry's — running. -/
theorem c9_dismiss_effects (s : PanelState) (key : String) :
    (dismissEntry s key).2 = [] ∧
    (dismissEntry s key).1.timers = s.timers ∧
    (dismissEntry s key).1.rows = s.rows.erase key :=
  ⟨rfl, rfl, rfl⟩

/-! ### Claim C10: incomplete identity -/

/-- C10 counterexample: with a URL known but directory/filename unresolved,
the click issues no install request at all; it raises the locally caught
`Insufficient information to install` error instead of proceeding — a URL
alone does not enable installation. -/
theorem c10_counterexample :
    (runClick ⟨"Install", false, false, "",
        ⟨false, none, none, none, none, none⟩, none, none,
        "https://example.com/f"⟩
      ⟨true, 200, none, none⟩ none ⟨true, 200, none, none⟩
      ⟨true, 200, none, none⟩).posts = [] ∧
    (runClick ⟨"Install", false, false, "",
        ⟨false, none, none, none, none, none⟩, none, none,
        "https://example.com/f"⟩
      ⟨true, 200, none, none⟩ none ⟨true, 200, none, none⟩
      ⟨true, 200, none, none⟩).alertMsg =
      some "Insufficient information to install" := by
  constructor <;> rfl

/-- C10 (amended): for an absent item the install path runs only when url,
directory and filename are all known; if any is missing, no POST is issued,
the thrown `Insufficient information to install` error is caught locally
(alert plus reset), no tracker is started, and the control is left enabled —
never an unhandled failure. -/
theorem c10_insufficient_info (inp : ClickInputs) (resp : HttpResp)
    (tokenDialog : Option String) (loginResp retryResp : HttpResp)
    (hab : inp.js.present = false)
    (hmiss : inp.url = "" ∨ inp.directory = none ∨ inp.filename = none) :
    (runClick inp resp tokenDialog loginResp retryResp).posts = [] ∧
    (runClick inp resp tokenDialog loginResp retryResp).alertMsg =
      some "Insufficient information to install" ∧
    (runClick inp resp tokenDialog loginResp retryResp).btnDisabled = false ∧
    (runClick inp resp tokenDialog loginResp retryResp).trackerKey = none := by
  have hb : clickBody inp = none := by
    rcases hmiss with h1 | h1 | h1 <;>
      cases hd : inp.directory <;> cases hf : inp.filename <;>
        simp_all [clickBody]
  rw [runClick, hb]
  simp [clickFail]

/-- C10 witness: a URL-only identity yields the handled error and no POST. -/
theorem c10_insufficient_info_witness :
    (runClick ⟨"Install", false, false, "",
        ⟨false, none, none, none, none, none⟩, none, some "x.safetensors",
        "https://example.com/f"⟩
      ⟨true, 200, none, none⟩ none ⟨true, 200, none, none⟩
      ⟨true, 200, none, none⟩).posts = [] ∧
    (runClick ⟨"Install", false, false, "",
        ⟨false, none, none, none, none, none⟩, none, some "x.safetensors",
        "https://example.com/f"⟩
      ⟨true, 200, none, none⟩ none ⟨true, 200, none, none⟩
      ⟨true, 200, none, none⟩).alertMsg =
      some "Insufficient information to install" := by
  have h := c10_insufficient_info ⟨"Install", false, false, "",
      ⟨false, none, none, none, none, none⟩, none, some "x.safetensors",
      "https://example.com/f"⟩
    ⟨true, 200, none, none⟩ none ⟨true, 200, none, none⟩
    ⟨true, 200, none, none⟩ rfl (Or.inr (Or.inl rfl))
  exact ⟨h.1, h.2.1⟩

end ModelInstaller
